/-
Verification of the escrow refund instruction and the wallet-format
conversions of the Q2_25_Builder repository.

Part 1 embeds the base58 conversions used by `wallet_to_base58` /
`base58_to_wallet` (src/q2-2025/airdrop-rust/src/lib.rs), i.e. the bs58
crate's encoding with the Bitcoin alphabet.

Part 2 embeds the `Refund` instruction of the Anchor escrow program
(src/q2-2025/escrow-anchor/programs/escrow-anchor-2/src/instructions/refund.rs)
together with the ledger semantics its correctness depends on (account
lookup, SPL token transfer-checked, account closing, Anchor constraint
checking).
-/
import Mathlib

namespace Bs58

/-- The Bitcoin base58 alphabet, the default alphabet of the bs58 crate used
by `wallet_to_base58` and `base58_to_wallet`. -/
def base58Alphabet : List Char :=
  "123456789ABCDEFGHJKLMNPQRSTUVWXYZabcdefghijkmnopqrstuvwxyz".toList

/-- Character for a base58 digit. -/
def b58CharOf (d : Nat) : Char := base58Alphabet.getD d '?'

/-- Index of a character in an alphabet, `none` when absent. -/
def b58IndexAux (c : Char) : List Char → Option Nat
  | [] => none
  | a :: as => if a = c then some 0 else (b58IndexAux c as).map (· + 1)

/-- Value of a base58 character, `none` for characters outside the alphabet
(the bs58 decoder rejects those). -/
def b58Index (c : Char) : Option Nat := b58IndexAux c base58Alphabet

/-- Number of leading zero bytes, encoded by bs58 as leading `'1'`s. -/
def leadingZeros : List Nat → Nat
  | [] => 0
  | b :: bs => if b = 0 then leadingZeros bs + 1 else 0

/-- Big-endian value of a digit string in the given base. -/
def beVal (base : Nat) (ds : List Nat) : Nat :=
  ds.foldl (fun a d => a * base + d) 0

/-- Big-endian base58 digits of a number (empty for zero). -/
def natToB58Digits (n : Nat) : List Nat := (Nat.digits 58 n).reverse

/-- bs58 encoding (`bs58::encode(wallet).into_string()` in
`wallet_to_base58`): one `'1'` per leading zero byte, then the big-endian
base58 digits of the byte string's value. -/
def bs58Encode (bytes : List Nat) : List Char :=
  List.replicate (leadingZeros bytes) '1'
    ++ (natToB58Digits (beVal 256 bytes)).map b58CharOf

/-- Values of all characters, `none` if any is outside the alphabet. -/
def b58Indices : List Char → Option (List Nat)
  | [] => some []
  | c :: cs =>
    match b58Index c, b58Indices cs with
    | some d, some ds => some (d :: ds)
    | _, _ => none

/-- Number of leading `'1'` characters, decoded by bs58 as zero bytes. -/
def countLeadingOnes : List Char → Nat
  | [] => 0
  | c :: cs => if c = '1' then countLeadingOnes cs + 1 else 0

/-- bs58 decoding (`bs58::decode(base58).into_vec()` in `base58_to_wallet`):
one zero byte per leading `'1'`, then the minimal big-endian base256
representation of the digit string's value. -/
def bs58Decode (s : List Char) : Option (List Nat) :=
  match b58Indices s with
  | none => none
  | some ds =>
    some (List.replicate (countLeadingOnes s) 0
      ++ (Nat.digits 256 (beVal 58 ds)).reverse)

theorem beVal_eq_ofDigits_aux (base : Nat) :
    ∀ (ds : List Nat) (a : Nat),
      ds.foldl (fun x d => x * base + d) a
        = a * base ^ ds.length + Nat.ofDigits base ds.reverse := by
  intro ds
  induction ds with
  | nil => intro a; simp [Nat.ofDigits_nil]
  | cons d tl ih =>
    intro a
    have h := ih (a * base + d)
    simp only [List.foldl_cons, List.reverse_cons, List.length_cons]
    rw [h, Nat.ofDigits_append]
    simp [Nat.ofDigits_cons, Nat.ofDigits_nil, List.length_reverse]
    ring

theorem beVal_eq_ofDigits (base : Nat) (ds : List Nat) :
    beVal base ds = Nat.ofDigits base ds.reverse := by
  have h := beVal_eq_ofDigits_aux base ds 0
  simpa [beVal] using h

theorem b58Index_b58CharOf {d : Nat} (hd : d < 58) :
    b58Index (b58CharOf d) = some d := by
  revert hd
  revert d
  decide

theorem b58CharOf_ne_one {d : Nat} (hd : d < 58) (hne : d ≠ 0) :
    b58CharOf d ≠ '1' := by
  revert hne
  revert hd
  revert d
  decide

theorem b58Indices_map_b58CharOf (ds : List Nat) (h : ∀ d ∈ ds, d < 58) :
    b58Indices (ds.map b58CharOf) = some ds := by
  induction ds with
  | nil => rfl
  | cons d tl ih =>
    have hd : d < 58 := h d (List.mem_cons_self d tl)
    have htl : ∀ x ∈ tl, x < 58 := fun x hx => h x (List.mem_cons_of_mem d hx)
    simp only [List.map_cons, b58Indices, b58Index_b58CharOf hd, ih htl]

theorem bs58Decode_cons_one (s : List Char) :
    bs58Decode ('1' :: s) = (bs58Decode s).map (fun bs => 0 :: bs) := by
  have hidx : b58Index '1' = some 0 := by decide
  simp only [bs58Decode, b58Indices, hidx]
  cases hs : b58Indices s with
  | none => rfl
  | some ds =>
    simp only [Option.map_some']
    have hone : countLeadingOnes ('1' :: s) = countLeadingOnes s + 1 := by
      simp [countLeadingOnes]
    have hval : beVal 58 (0 :: ds) = beVal 58 ds := by
      simp [beVal]
    rw [hone, hval]
    simp [List.replicate_succ]

theorem bs58Encode_cons_zero (bs : List Nat) :
    bs58Encode (0 :: bs) = '1' :: bs58Encode bs := by
  have hz : leadingZeros (0 :: bs) = leadingZeros bs + 1 := by
    simp [leadingZeros]
  have hv : beVal 256 (0 :: bs) = beVal 256 bs := by
    simp [beVal]
  simp [bs58Encode, hz, hv, List.replicate_succ]

/-- Auxiliary: the round trip on a byte list whose first byte is nonzero. -/
theorem bs58_roundtrip_nonzero_head (b : Nat) (bs : List Nat)
    (hb : b ≠ 0) (hlt : ∀ x ∈ b :: bs, x < 256) :
    bs58Decode (bs58Encode (b :: bs)) = some (b :: bs) := by
  have hz : leadingZeros (b :: bs) = 0 := by
    simp [leadingZeros, hb]
  set N := beVal 256 (b :: bs) with hN
  have hNval : N = Nat.ofDigits 256 (bs.reverse ++ [b]) := by
    rw [hN, beVal_eq_ofDigits]
    simp
  have hNpos : N ≠ 0 := by
    rw [hNval, Nat.ofDigits_append]
    have : (0:ℕ) < 256 ^ bs.reverse.length * Nat.ofDigits 256 [b] := by
      apply Nat.mul_pos
      · exact Nat.pos_pow_of_pos _ (by norm_num)
      · simp [Nat.ofDigits_cons, Nat.ofDigits_nil]
        omega
    omega
  -- digits of N
  set E := Nat.digits 58 N with hE
  have hEne : E ≠ [] := by
    rw [hE]
    exact Nat.digits_ne_nil_iff_ne_zero.mpr hNpos
  have hElt : ∀ d ∈ E, d < 58 := fun d hd =>
    Nat.digits_lt_base (by norm_num) (hE ▸ hd)
  have hElast : E.getLast hEne ≠ 0 := Nat.getLast_digit_ne_zero 58 hNpos
  -- decompose E from the back to see the most significant digit
  rcases List.eq_nil_or_concat' E with hnil | ⟨E', d, hcat⟩
  · exact absurd hnil hEne
  have hlast1 : E.getLast? = some (E.getLast hEne) :=
    List.getLast?_eq_getLast E hEne
  have hlast2 : E.getLast? = some d := by
    rw [hcat]
    simp
  have hdne : d ≠ 0 := by
    rw [hlast1] at hlast2
    intro h0
    apply hElast
    rw [Option.some_inj] at hlast2
    rw [hlast2, h0]
  have hdlt : d < 58 := hElt d (by rw [hcat]; simp)
  have hEd : E.reverse = d :: E'.reverse := by
    rw [hcat]; simp
  have henc : bs58Encode (b :: bs)
      = (d :: E'.reverse).map b58CharOf := by
    simp only [bs58Encode, hz, List.replicate_zero, List.nil_append,
      natToB58Digits, ← hN, ← hE, hEd]
  have hrevlt : ∀ x ∈ d :: E'.reverse, x < 58 := by
    intro x hx
    apply hElt
    rw [← hEd] at hx
    exact List.mem_reverse.mp hx
  have hids : b58Indices (bs58Encode (b :: bs)) = some (d :: E'.reverse) := by
    rw [henc]
    exact b58Indices_map_b58CharOf _ hrevlt
  have hlead : countLeadingOnes (bs58Encode (b :: bs)) = 0 := by
    rw [henc]
    simp only [List.map_cons, countLeadingOnes]
    rw [if_neg (b58CharOf_ne_one hdlt hdne)]
  have hback : beVal 58 (d :: E'.reverse) = N := by
    rw [beVal_eq_ofDigits, ← hEd, List.reverse_reverse, hE,
      Nat.ofDigits_digits]
  have hminimal : Nat.digits 256 N = bs.reverse ++ [b] := by
    rw [hNval]
    apply Nat.digits_ofDigits 256 (by norm_num)
    · intro l hl
      rcases List.mem_append.mp hl with h1 | h2
      · exact hlt l (List.mem_cons_of_mem b (List.mem_reverse.mp h1))
      · simp at h2
        subst h2
        exact hlt l (List.mem_cons_self _ _)
    · intro h
      simpa [List.getLast_append] using hb
  rw [bs58Decode, hids]
  simp only [hlead, List.replicate_zero, List.nil_append, hback, hminimal]
  simp

/-- Round trip: decoding the bs58 encoding of any byte list returns exactly
that byte list. -/
theorem bs58_roundtrip (bytes : List Nat) (h : ∀ x ∈ bytes, x < 256) :
    bs58Decode (bs58Encode bytes) = some bytes := by
  induction bytes with
  | nil =>
    simp [bs58Encode, bs58Decode, b58Indices, beVal, leadingZeros,
      natToB58Digits, countLeadingOnes]
  | cons b bs ih =>
    by_cases hb : b = 0
    · subst hb
      have hbs : ∀ x ∈ bs, x < 256 := fun x hx =>
        h x (List.mem_cons_of_mem _ hx)
      rw [bs58Encode_cons_zero, bs58Decode_cons_one, ih hbs]
      rfl
    · exact bs58_roundtrip_nonzero_head b bs hb h

end Bs58

deriving instance DecidableEq for Except

namespace EscrowProg

/-- Account addresses / identities (Solana pubkeys), abstracted as naturals. -/
abbrev Pubkey := Nat

/-- Association-list lookup keyed by address (first binding wins, like the
runtime's account map). -/
def alookup {β : Type} : List (Nat × β) → Nat → Option β
  | [], _ => none
  | (k, v) :: ts, a => if k = a then some v else alookup ts a

/-- Update every binding of an address in place. -/
def updAssoc {β : Type} : List (Nat × β) → Nat → (β → β) → List (Nat × β)
  | [], _, _ => []
  | (k, v) :: ts, a, f =>
    if k = a then (k, f v) :: updAssoc ts a f else (k, v) :: updAssoc ts a f

/-- Delete every binding of an address. -/
def delAssoc {β : Type} : List (Nat × β) → Nat → List (Nat × β)
  | [], _ => []
  | (k, v) :: ts, a => if k = a then delAssoc ts a else (k, v) :: delAssoc ts a

/-- Overwrite the binding of an address. -/
def setAssoc {β : Type} (l : List (Nat × β)) (a : Nat) (v : β) :
    List (Nat × β) := (a, v) :: delAssoc l a

/-- Modelled from the spec: the Escrow Record state struct
(`crate::state::Escrow`) is not under src/; its fields are the ones the spec
lists in section 3 and that refund.rs dereferences: `seed`, `maker`,
`mint_a`, `mint_b`, `receive` and the `bump` (the spec's derivation proof). -/
structure Escrow where
  seed : Nat
  maker : Pubkey
  mint_a : Pubkey
  mint_b : Pubkey
  receive : Nat
  bump : Nat
deriving DecidableEq, Repr

/-- A mint account; only its decimal count matters to `transfer_checked`. -/
structure MintAcct where
  decimals : Nat
deriving DecidableEq, Repr

/-- An SPL token account: asset type, owning authority and balance. -/
structure TokenAcct where
  mint : Pubkey
  authority : Pubkey
  amount : Nat
deriving DecidableEq, Repr

/-- Ledger state: mint accounts, token accounts, escrow records and lamport
balances, each keyed by address. -/
structure World where
  mints : List (Pubkey × MintAcct)
  tokens : List (Pubkey × TokenAcct)
  escrows : List (Pubkey × Escrow)
  lamports : List (Pubkey × Nat)
deriving DecidableEq, Repr

/-- Addresses supplied to the `Refund` instruction, one per field of the
`Refund<'info>` accounts struct (`maker` is the transaction's signer). -/
structure RefundCtx where
  maker : Pubkey
  mint_a : Pubkey
  maker_ata_a : Pubkey
  escrow : Pubkey
  vault : Pubkey
deriving DecidableEq, Repr

/-- Failure conditions. `accountNotFound` is Anchor's AccountNotInitialized,
the spec's `OfferNotFound`; `hasOneViolation` is Anchor's ConstraintHasOne on
`has_one = maker` / `has_one = mint_a`, the spec's `Unauthorized`. -/
inductive Err
  | accountNotFound
  | constraintViolation
  | seedsViolation
  | hasOneViolation
  | tokenMismatch
  | unauthorized
  | insufficientFunds
deriving DecidableEq, Repr

/-- Program ids appearing in the instruction's CPIs. -/
inductive ProgramId
  | token
  | associatedToken
  | system
deriving DecidableEq, Repr

/-- A cross-program request issued by the instruction handler. -/
inductive CpiReq
  | transferChecked (program : ProgramId)
      (fromAcct toAcct mintAcct authority : Pubkey) (amount decimals : Nat)
  | closeAcct (program : ProgramId) (account destination authority : Pubkey)
deriving DecidableEq, Repr

/-- Arguments of a CloseAccount CPI. -/
structure CloseArgs where
  program : ProgramId
  account : Pubkey
  destination : Pubkey
  authority : Pubkey
deriving DecidableEq, Repr

/-- Outcome of one Refund execution: error (if any), resulting ledger (the
runtime reverts all effects of a failed instruction, so on error it is the
entry ledger), and the CPIs the handler issued. -/
structure RefundResult where
  err : Option Err
  world : World
  cpis : List CpiReq
deriving DecidableEq, Repr

/-- `u64::to_le_bytes`. -/
def u64LeBytes (n : Nat) : List Nat := (List.range 8).map (fun i => n / 256 ^ i % 256)

/-- `Pubkey::as_ref`: the 32-byte representation of a pubkey. -/
def pubkeyBytes (k : Pubkey) : List Nat := (List.range 32).map (fun i => k / 256 ^ i % 256)

/-- Bytes of a string literal such as `b"escrow"`. -/
def strBytes (s : String) : List Nat := s.toList.map Char.toNat

/-- The seed tuple under which the `escrow` account is validated
(refund.rs lines 32-33): `seeds = [b"maker_ata_a", maker.key().as_ref(),
escrow.seed.to_le_bytes().as_ref()]`, `bump = escrow.bump`. -/
def escrowAccountSeeds (maker : Pubkey) (e : Escrow) : List (List Nat) :=
  [strBytes "maker_ata_a", pubkeyBytes maker, u64LeBytes e.seed, [e.bump]]

/-- The signer-seed tuple `refund_and_close` presents to authorize the Vault
transfer (refund.rs lines 55-62): `[b"escrow", maker.key().as_ref(),
escrow.receive.to_le_bytes(), [escrow.bump]]`. -/
def refundSignerSeeds (makerKey : Pubkey) (e : Escrow) : List (List Nat) :=
  [strBytes "escrow", pubkeyBytes makerKey, u64LeBytes e.receive, [e.bump]]

/-- SPL token program `TransferChecked`: the mint must match both accounts
and the stated decimal count, the source's authority must be among the
(outer or seed-derived) signers, and the source must cover the amount. -/
def transfer_checked (signers : List Pubkey) (w : World)
    (fromA toA mintA : Pubkey) (amount decimals : Nat) : Except Err World :=
  match alookup w.tokens fromA, alookup w.tokens toA, alookup w.mints mintA with
  | some f, some t, some m =>
    if f.mint = mintA ∧ t.mint = mintA ∧ decimals = m.decimals then
      if f.authority ∈ signers then
        if amount ≤ f.amount then
          let ts1 := updAssoc w.tokens fromA (fun a => { a with amount := a.amount - amount })
          let ts2 := updAssoc ts1 toA (fun a => { a with amount := a.amount + amount })
          .ok { w with tokens := ts2 }
        else .error .insufficientFunds
      else .error .unauthorized
    else .error .tokenMismatch
  | _, _, _ => .error .accountNotFound

/-- Dispatch of a CloseAccount CPI. Only the SPL token program implements
the CloseAccount instruction: the token-interface wrapper rejects a close
routed to any other program id (the associated token program defines no such
handler), so such a request fails with no effect. The token program itself
requires a zero balance and the account's authority, deletes the account and
credits its lamports to the destination. -/
def runCloseCpi (args : CloseArgs) (w : World) : Option World :=
  match args.program with
  | .token =>
    match alookup w.tokens args.account with
    | some acct =>
      if acct.authority = args.authority ∧ acct.amount = 0 then
        some { w with
          tokens := delAssoc w.tokens args.account,
          lamports :=
            setAssoc (delAssoc w.lamports args.account) args.destination
              ((alookup (delAssoc w.lamports args.account) args.destination).getD 0
                + (alookup w.lamports args.account).getD 0) }
      else none
    | none => none
  | _ => none

/-- The accounts loaded by a successful `Refund` constraint check. -/
structure Loaded where
  mintAcct : MintAcct
  makerAta : TokenAcct
  escrowAcct : Escrow
  vaultAcct : TokenAcct
deriving DecidableEq, Repr

/-- Anchor's account deserialization and constraint checking for the
`Refund` accounts struct, in field order: `mint_a` must be a mint; the
`maker_ata_a` must be the maker's associated token account for `mint_a`;
the `escrow` account must exist (else AccountNotInitialized), lie at the
address derived from its `seeds`/`bump` constraint, and satisfy
`has_one = mint_a` and `has_one = maker`; the `vault` must be the escrow's
associated token account for `mint_a`. `pda` abstracts
`create_program_address` and `ata` the associated-token address derivation. -/
def validateRefund (pda : List (List Nat) → Pubkey) (ata : Pubkey → Pubkey → Pubkey)
    (w : World) (c : RefundCtx) : Except Err Loaded :=
  match alookup w.mints c.mint_a with
  | none => .error .accountNotFound
  | some m =>
    match alookup w.tokens c.maker_ata_a with
    | none => .error .accountNotFound
    | some ma =>
      if c.maker_ata_a = ata c.maker c.mint_a ∧ ma.mint = c.mint_a ∧ ma.authority = c.maker then
        match alookup w.escrows c.escrow with
        | none => .error .accountNotFound
        | some e =>
          if c.escrow = pda (escrowAccountSeeds c.maker e) then
            if e.mint_a = c.mint_a ∧ e.maker = c.maker then
              match alookup w.tokens c.vault with
              | none => .error .accountNotFound
              | some v =>
                if c.vault = ata c.escrow c.mint_a ∧ v.mint = c.mint_a ∧ v.authority = c.escrow then
                  .ok ⟨m, ma, e, v⟩
                else .error .constraintViolation
            else .error .hasOneViolation
          else .error .seedsViolation
      else .error .constraintViolation

/-- The `Refund` instruction: Anchor validation, then `refund_and_close`
(refund.rs lines 53-92): build the signer seeds from the maker key and
`escrow.receive`; CPI `transfer_checked` of the vault's full balance to the
maker's ata with the escrow as authority, propagating failure with `?`; CPI
`close_account` on the vault addressed to the associated token program, its
result bound to `_` and discarded; return `Ok(())`, whereupon Anchor's
`close = maker` on `escrow` deletes the record and credits its lamports to
the maker. `closeCpi` is the executor the discarded close request runs on. -/
def refund (pda : List (List Nat) → Pubkey) (ata : Pubkey → Pubkey → Pubkey)
    (closeCpi : CloseArgs → World → Option World)
    (w : World) (c : RefundCtx) : RefundResult :=
  match validateRefund pda ata w c with
  | .error e => ⟨some e, w, []⟩
  | .ok l =>
    let signers := [c.maker, pda (refundSignerSeeds c.maker l.escrowAcct)]
    let treq : CpiReq := .transferChecked .token c.vault c.maker_ata_a c.mint_a
      c.escrow l.vaultAcct.amount l.mintAcct.decimals
    match transfer_checked signers w c.vault c.maker_ata_a c.mint_a
        l.vaultAcct.amount l.mintAcct.decimals with
    | .error e => ⟨some e, w, [treq]⟩
    | .ok w2 =>
      let cargs : CloseArgs := ⟨.associatedToken, c.vault, c.maker, c.escrow⟩
      let w3 := (closeCpi cargs w2).getD w2
      let rent := (alookup w3.lamports c.escrow).getD 0
      let lam2 := delAssoc w3.lamports c.escrow
      let w4 : World := { w3 with
        escrows := delAssoc w3.escrows c.escrow,
        lamports := setAssoc lam2 c.maker ((alookup lam2 c.maker).getD 0 + rent) }
      ⟨none, w4, [treq, .closeAcct .associatedToken c.vault c.maker c.escrow]⟩

/-- `Refund` run against the real CloseAccount dispatch. -/
def refundReal (pda : List (List Nat) → Pubkey) (ata : Pubkey → Pubkey → Pubkey)
    (w : World) (c : RefundCtx) : RefundResult :=
  refund pda ata runCloseCpi w c

/-- Addresses supplied to an Exchange attempt. -/
structure ExchangeCtx where
  taker : Pubkey
  escrow : Pubkey
  vault : Pubkey
  taker_ata_a : Pubkey
  taker_ata_b : Pubkey
  maker_ata_b : Pubkey
deriving DecidableEq, Repr

/-- Modelled from the spec: the Exchange operation (section 4.3) is not
under src/. Preconditions: the Escrow Record exists (else the spec's
`OfferNotFound`), the supplied accounts carry the record's `mint_a`/`mint_b`
(else `AssetMismatch`), and the taker covers `receive` of `mint_b`. Effect:
transfer `receive` of `mint_b` taker to maker, move the vault's full balance
to the taker, close the emptied vault, close the record. -/
def exchange (w : World) (c : ExchangeCtx) : Option Err × World :=
  match alookup w.escrows c.escrow with
  | none => (some .accountNotFound, w)
  | some e =>
    match alookup w.tokens c.taker_ata_b, alookup w.tokens c.maker_ata_b,
        alookup w.tokens c.taker_ata_a, alookup w.tokens c.vault with
    | some tb, some mb, some ta, some v =>
      if tb.mint = e.mint_b ∧ mb.mint = e.mint_b ∧ ta.mint = e.mint_a ∧ v.mint = e.mint_a then
        if e.receive ≤ tb.amount then
          let ts1 := updAssoc w.tokens c.taker_ata_b (fun a => { a with amount := a.amount - e.receive })
          let ts2 := updAssoc ts1 c.maker_ata_b (fun a => { a with amount := a.amount + e.receive })
          let ts3 := updAssoc ts2 c.taker_ata_a (fun a => { a with amount := a.amount + v.amount })
          let ts4 := delAssoc ts3 c.vault
          let rent := (alookup w.lamports c.vault).getD 0 + (alookup w.lamports c.escrow).getD 0
          let lam2 := delAssoc (delAssoc w.lamports c.vault) c.escrow
          (none, { w with
            tokens := ts4,
            escrows := delAssoc w.escrows c.escrow,
            lamports := setAssoc lam2 e.maker ((alookup lam2 e.maker).getD 0 + rent) })
        else (some .insufficientFunds, w)
      else (some .tokenMismatch, w)
    | _, _, _, _ => (some .accountNotFound, w)

end EscrowProg

namespace EscrowProg

theorem alookup_updAssoc {β : Type} (l : List (Nat × β)) (a b : Nat) (f : β → β) :
    alookup (updAssoc l a f) b
      = if b = a then (alookup l a).map f else alookup l b := by
  induction l with
  | nil => simp [alookup, updAssoc]
  | cons p ts ih =>
    obtain ⟨k, v⟩ := p
    by_cases hka : k = a
    · subst hka
      by_cases hkb : k = b
      · subst hkb
        simp [updAssoc, alookup]
      · simp [updAssoc, alookup, hkb, ih, Ne.symm hkb]
    · by_cases hkb : k = b
      · subst hkb
        simp [updAssoc, alookup, hka, Ne.symm hka]
      · simp [updAssoc, alookup, hka, hkb, ih]

theorem alookup_delAssoc_self {β : Type} (l : List (Nat × β)) (a : Nat) :
    alookup (delAssoc l a) a = none := by
  induction l with
  | nil => simp [alookup, delAssoc]
  | cons p ts ih =>
    obtain ⟨k, v⟩ := p
    by_cases hka : k = a
    · simp [delAssoc, hka, ih]
    · simp [delAssoc, alookup, hka, ih]

theorem alookup_delAssoc_ne {β : Type} (l : List (Nat × β)) (a b : Nat)
    (h : b ≠ a) : alookup (delAssoc l a) b = alookup l b := by
  induction l with
  | nil => simp [alookup, delAssoc]
  | cons p ts ih =>
    obtain ⟨k, v⟩ := p
    by_cases hka : k = a
    · subst hka
      simp [delAssoc, alookup, Ne.symm h, ih]
    · simp [delAssoc, alookup, hka, ih]

theorem alookup_setAssoc_self {β : Type} (l : List (Nat × β)) (a : Nat) (v : β) :
    alookup (setAssoc l a v) a = some v := by
  simp [setAssoc, alookup]

theorem alookup_setAssoc_ne {β : Type} (l : List (Nat × β)) (a b : Nat) (v : β)
    (h : b ≠ a) : alookup (setAssoc l a v) b = alookup l b := by
  simp [setAssoc, alookup, Ne.symm h, alookup_delAssoc_ne l a b h]

/-- Inversion of a successful `Refund` constraint check. -/
theorem validateRefund_ok_inv {pda : List (List Nat) → Pubkey}
    {ata : Pubkey → Pubkey → Pubkey} {w : World} {c : RefundCtx} {l : Loaded}
    (h : validateRefund pda ata w c = Except.ok l) :
    alookup w.mints c.mint_a = some l.mintAcct ∧
    alookup w.tokens c.maker_ata_a = some l.makerAta ∧
    c.maker_ata_a = ata c.maker c.mint_a ∧
    l.makerAta.mint = c.mint_a ∧
    l.makerAta.authority = c.maker ∧
    alookup w.escrows c.escrow = some l.escrowAcct ∧
    c.escrow = pda (escrowAccountSeeds c.maker l.escrowAcct) ∧
    l.escrowAcct.mint_a = c.mint_a ∧
    l.escrowAcct.maker = c.maker ∧
    alookup w.tokens c.vault = some l.vaultAcct ∧
    c.vault = ata c.escrow c.mint_a ∧
    l.vaultAcct.mint = c.mint_a ∧
    l.vaultAcct.authority = c.escrow := by
  unfold validateRefund at h
  repeat' split at h
  all_goals try (injection h with h)
  all_goals try subst h
  all_goals simp_all

/-- Inversion of a successful `transfer_checked`. -/
theorem transfer_checked_ok_inv {signers : List Pubkey} {w : World}
    {fromA toA mintA : Pubkey} {amount decimals : Nat} {w2 : World}
    (h : transfer_checked signers w fromA toA mintA amount decimals = Except.ok w2) :
    ∃ f t m, alookup w.tokens fromA = some f ∧
      alookup w.tokens toA = some t ∧
      alookup w.mints mintA = some m ∧
      f.mint = mintA ∧ t.mint = mintA ∧ decimals = m.decimals ∧
      f.authority ∈ signers ∧ amount ≤ f.amount ∧
      w2.tokens = updAssoc (updAssoc w.tokens fromA (fun a => { a with amount := a.amount - amount })) toA (fun a => { a with amount := a.amount + amount }) ∧
      w2.mints = w.mints ∧ w2.escrows = w.escrows ∧ w2.lamports = w.lamports := by
  unfold transfer_checked at h
  repeat' split at h
  all_goals try (injection h with h)
  all_goals try subst h
  all_goals simp_all

end EscrowProg

namespace EscrowProg

/-- A concrete address-derivation function for instantiating the model (a
stand-in for the SHA-256 based `create_program_address`). -/
def pdaW : List (List Nat) → Pubkey := fun _ => 100

/-- A concrete associated-token address derivation for instantiation. -/
def ataW : Pubkey → Pubkey → Pubkey := fun o m => 10 * o + m

/-- A concrete escrow record: seed 7, maker 1, mint_a 2, mint_b 3,
receive 5, bump 254. -/
def escrowW : Escrow := ⟨7, 1, 2, 3, 5, 254⟩

/-- A concrete refundable ledger: mint 2 (6 decimals); the maker's ata at
address 12 (empty) and the vault at address 1002 holding 40 of mint 2, owned
by the escrow record at address 100; lamport balances for maker and record. -/
def worldW : World :=
  { mints := [(2, ⟨6⟩)],
    tokens := [(12, ⟨2, 1, 0⟩), (1002, ⟨2, 100, 40⟩)],
    escrows := [(100, escrowW)],
    lamports := [(1, 5), (100, 2000)] }

/-- The matching refund call: maker 1 signs, passing mint 2, its ata 12,
escrow 100 and vault 1002. -/
def ctxW : RefundCtx := ⟨1, 2, 12, 100, 1002⟩

/-- The accounts `validateRefund` loads on `worldW`/`ctxW`. -/
def loadedW : Loaded := ⟨⟨6⟩, ⟨2, 1, 0⟩, escrowW, ⟨2, 100, 40⟩⟩

/-- `worldW` extended with identity 9 and its own (well-formed) ata for
mint 2, used for an unauthorized refund attempt. -/
def worldAtk : World := { worldW with tokens := (92, ⟨2, 9, 0⟩) :: worldW.tokens }

/-- The unauthorized refund call: signer 9 targets escrow 100 whose stored
maker is 1. -/
def ctxAtk : RefundCtx := ⟨9, 2, 92, 100, 1002⟩

/-- `worldW` extended with a bystander account at address 77 holding 11 of
the record's `mint_b` (asset 3), owned by identity 4. -/
def worldB : World := { worldW with tokens := worldW.tokens ++ [(77, ⟨3, 4, 11⟩)] }

/-- Ledger after the vault-to-maker transfer on `worldW`. -/
def w2W : World :=
  { worldW with tokens := [(12, ⟨2, 1, 40⟩), (1002, ⟨2, 100, 0⟩)] }

end EscrowProg

namespace EscrowProg

/-- C1: the claim states that the seed tuple `refund_and_close` signs the
Vault transfer with reproduces the escrow account's own derivation, i.e.
equals the seed tuple of the escrow account's `seeds`/`bump` constraint. In
the code the two tuples differ for every maker key and every escrow record:
the namespace tag is `b"escrow"` versus `b"maker_ata_a"` and the third
component is `receive` versus `seed`, so the signing seeds can never
re-derive the validated escrow address. -/
theorem refund_signer_seeds_ne_escrow_account_seeds :
    ∀ (makerKey : Pubkey) (e : Escrow),
      refundSignerSeeds makerKey e ≠ escrowAccountSeeds makerKey e := by
  intro mk e h
  rw [refundSignerSeeds, escrowAccountSeeds] at h
  injection h with h1 _
  exact absurd h1 (by decide)

/-- C2: on the concrete refundable ledger `worldW`, Refund reports success
(`err = none`) while the Vault account still exists with a zero balance —
the transfer happened but the Vault was never closed, because the close
request went to the associated token program and its failure was discarded. -/
theorem refund_reports_success_with_vault_unclosed :
    (refundReal pdaW ataW worldW ctxW).err = none ∧
    alookup (refundReal pdaW ataW worldW ctxW).world.tokens ctxW.vault
      = some ⟨2, 100, 0⟩ := by
  decide

end EscrowProg

namespace EscrowProg

/-- C3: in every Refund execution that succeeds, the issued transfer moves
exactly the Vault's entire balance: the transfer request's amount is the
vault account's full balance, afterwards the vault balance is zero and the
maker's holding account has gained exactly that balance. -/
theorem refund_transfers_full_vault_balance
    (pda : List (List Nat) → Pubkey) (ata : Pubkey → Pubkey → Pubkey)
    (w : World) (c : RefundCtx) (l : Loaded)
    (hv : validateRefund pda ata w c = Except.ok l)
    (hok : (refundReal pda ata w c).err = none)
    (hne : c.vault ≠ c.maker_ata_a) :
    (refundReal pda ata w c).cpis.head?
      = some (CpiReq.transferChecked ProgramId.token c.vault c.maker_ata_a
          c.mint_a c.escrow l.vaultAcct.amount l.mintAcct.decimals) ∧
    alookup (refundReal pda ata w c).world.tokens c.vault
      = some { l.vaultAcct with amount := 0 } ∧
    alookup (refundReal pda ata w c).world.tokens c.maker_ata_a
      = some { l.makerAta with amount := l.makerAta.amount + l.vaultAcct.amount } := by
  obtain ⟨hm, hA, -, -, -, -, -, -, -, hV, -, -, -⟩ := validateRefund_ok_inv hv
  simp only [refundReal, refund, hv] at hok ⊢
  cases ht : transfer_checked [c.maker, pda (refundSignerSeeds c.maker l.escrowAcct)]
      w c.vault c.maker_ata_a c.mint_a l.vaultAcct.amount l.mintAcct.decimals with
  | error e => simp [ht] at hok
  | ok w2 =>
    obtain ⟨f, t, m, hf, htA, -, -, -, -, -, -, htok, -, -, -⟩ :=
      transfer_checked_ok_inv ht
    have hfl : f = l.vaultAcct := by
      rw [hf] at hV
      exact Option.some_inj.mp hV
    have htl : t = l.makerAta := by
      rw [htA] at hA
      exact Option.some_inj.mp hA
    subst hfl htl
    simp only [ht, runCloseCpi, Option.getD_none]
    refine ⟨rfl, ?_, ?_⟩
    · rw [htok, alookup_updAssoc, if_neg hne, alookup_updAssoc, if_pos rfl, hV]
      simp
    · rw [htok, alookup_updAssoc, if_pos rfl, alookup_updAssoc,
        if_neg (Ne.symm hne), hA]
      simp

/-- C3 witness: on the concrete ledger `worldW` the hypotheses hold and the
refund moves the vault's entire 40 units of mint 2 to the maker's ata. -/
theorem refund_transfers_full_vault_balance_witness :
    (validateRefund pdaW ataW worldW ctxW = Except.ok loadedW ∧
      (refundReal pdaW ataW worldW ctxW).err = none ∧
      ctxW.vault ≠ ctxW.maker_ata_a) ∧
    ((refundReal pdaW ataW worldW ctxW).cpis.head?
        = some (CpiReq.transferChecked ProgramId.token ctxW.vault ctxW.maker_ata_a
            ctxW.mint_a ctxW.escrow loadedW.vaultAcct.amount loadedW.mintAcct.decimals) ∧
      alookup (refundReal pdaW ataW worldW ctxW).world.tokens ctxW.vault
        = some { loadedW.vaultAcct with amount := 0 } ∧
      alookup (refundReal pdaW ataW worldW ctxW).world.tokens ctxW.maker_ata_a
        = some { loadedW.makerAta with
            amount := loadedW.makerAta.amount + loadedW.vaultAcct.amount }) :=
  ⟨⟨by decide, by decide, by decide⟩,
    refund_transfers_full_vault_balance pdaW ataW worldW ctxW loadedW
      (by decide) (by decide) (by decide)⟩

end EscrowProg

namespace EscrowProg

/-- C4: a Refund attempt whose authorizing signer differs from the maker
stored in the Escrow Record is rejected during constraint checking — by the
seeds check or by the `has_one = maker` check, both functions of the maker
identity — before any CPI is issued, and the ledger is left untouched. -/
theorem refund_wrong_maker_rejected
    (pda : List (List Nat) → Pubkey) (ata : Pubkey → Pubkey → Pubkey)
    (closeCpi : CloseArgs → World → Option World)
    (w : World) (c : RefundCtx) (m : MintAcct) (ma : TokenAcct) (e : Escrow)
    (hm : alookup w.mints c.mint_a = some m)
    (hma : alookup w.tokens c.maker_ata_a = some ma)
    (hata : c.maker_ata_a = ata c.maker c.mint_a)
    (hmam : ma.mint = c.mint_a)
    (hmaa : ma.authority = c.maker)
    (hesc : alookup w.escrows c.escrow = some e)
    (hneq : e.maker ≠ c.maker) :
    ((refund pda ata closeCpi w c).err = some Err.seedsViolation ∨
      (refund pda ata closeCpi w c).err = some Err.hasOneViolation) ∧
    (refund pda ata closeCpi w c).world = w ∧
    (refund pda ata closeCpi w c).cpis = [] := by
  have hval : validateRefund pda ata w c = Except.error Err.seedsViolation ∨
      validateRefund pda ata w c = Except.error Err.hasOneViolation := by
    unfold validateRefund
    simp only [hm, hma, hesc]
    rw [if_pos ⟨hata, hmam, hmaa⟩]
    by_cases hp : c.escrow = pda (escrowAccountSeeds c.maker e)
    · rw [if_pos hp, if_neg (fun hand => hneq hand.2)]
      right
      rfl
    · rw [if_neg hp]
      left
      rfl
  rcases hval with hval | hval <;> simp [refund, hval]

/-- C4 witness: identity 9 (holding a well-formed ata for mint 2) attempts to
refund the escrow whose stored maker is 1; the attempt is rejected with the
has_one authorization error and nothing changes. -/
theorem refund_wrong_maker_rejected_witness :
    (alookup worldAtk.mints ctxAtk.mint_a = some ⟨6⟩ ∧
      alookup worldAtk.tokens ctxAtk.maker_ata_a = some ⟨2, 9, 0⟩ ∧
      ctxAtk.maker_ata_a = ataW ctxAtk.maker ctxAtk.mint_a ∧
      (⟨2, 9, 0⟩ : TokenAcct).mint = ctxAtk.mint_a ∧
      (⟨2, 9, 0⟩ : TokenAcct).authority = ctxAtk.maker ∧
      alookup worldAtk.escrows ctxAtk.escrow = some escrowW ∧
      escrowW.maker ≠ ctxAtk.maker) ∧
    (((refund pdaW ataW runCloseCpi worldAtk ctxAtk).err = some Err.seedsViolation ∨
        (refund pdaW ataW runCloseCpi worldAtk ctxAtk).err = some Err.hasOneViolation) ∧
      (refund pdaW ataW runCloseCpi worldAtk ctxAtk).world = worldAtk ∧
      (refund pdaW ataW runCloseCpi worldAtk ctxAtk).cpis = []) :=
  ⟨⟨by decide, by decide, by decide, by decide, by decide, by decide, by decide⟩,
    refund_wrong_maker_rejected pdaW ataW runCloseCpi worldAtk ctxAtk ⟨6⟩ ⟨2, 9, 0⟩
      escrowW (by decide) (by decide) (by decide) (by decide) (by decide)
      (by decide) (by decide)⟩

/-- C5: whenever the Refund's constraint check passes, the (first and only)
transfer request issued is authorized by the escrow account — its authority
field is the escrow record's address, which by validation is exactly the
stored authority of the Vault — not by the maker's signature. -/
theorem refund_transfer_authority_is_escrow
    (pda : List (List Nat) → Pubkey) (ata : Pubkey → Pubkey → Pubkey)
    (closeCpi : CloseArgs → World → Option World)
    (w : World) (c : RefundCtx) (l : Loaded)
    (hv : validateRefund pda ata w c = Except.ok l) :
    (refund pda ata closeCpi w c).cpis.head?
      = some (CpiReq.transferChecked ProgramId.token c.vault c.maker_ata_a
          c.mint_a c.escrow l.vaultAcct.amount l.mintAcct.decimals) ∧
    l.vaultAcct.authority = c.escrow := by
  obtain ⟨-, -, -, -, -, -, -, -, -, -, -, -, hauth⟩ := validateRefund_ok_inv hv
  refine ⟨?_, hauth⟩
  simp only [refund, hv]
  cases ht : transfer_checked [c.maker, pda (refundSignerSeeds c.maker l.escrowAcct)]
      w c.vault c.maker_ata_a c.mint_a l.vaultAcct.amount l.mintAcct.decimals with
  | error e => rfl
  | ok w2 => rfl

/-- C5 witness: on the concrete ledger the refund's transfer request carries
the escrow address 100 as authority, matching the vault's stored owner. -/
theorem refund_transfer_authority_is_escrow_witness :
    validateRefund pdaW ataW worldW ctxW = Except.ok loadedW ∧
    ((refund pdaW ataW runCloseCpi worldW ctxW).cpis.head?
        = some (CpiReq.transferChecked ProgramId.token ctxW.vault ctxW.maker_ata_a
            ctxW.mint_a ctxW.escrow loadedW.vaultAcct.amount loadedW.mintAcct.decimals) ∧
      loadedW.vaultAcct.authority = ctxW.escrow) :=
  ⟨by decide,
    refund_transfer_authority_is_escrow pdaW ataW runCloseCpi worldW ctxW loadedW
      (by decide)⟩

end EscrowProg

namespace EscrowProg

/-- C7: every successful Refund removes the Escrow Record from the ledger
and credits the record's reclaimed lamports (its rent) to the maker, the
`close = maker` beneficiary. -/
theorem refund_closes_escrow_rent_to_maker
    (pda : List (List Nat) → Pubkey) (ata : Pubkey → Pubkey → Pubkey)
    (w : World) (c : RefundCtx) (l : Loaded)
    (hv : validateRefund pda ata w c = Except.ok l)
    (hok : (refundReal pda ata w c).err = none)
    (hne : c.maker ≠ c.escrow) :
    alookup (refundReal pda ata w c).world.escrows c.escrow = none ∧
    alookup (refundReal pda ata w c).world.lamports c.maker
      = some ((alookup w.lamports c.maker).getD 0
          + (alookup w.lamports c.escrow).getD 0) := by
  simp only [refundReal, refund, hv] at hok ⊢
  cases ht : transfer_checked [c.maker, pda (refundSignerSeeds c.maker l.escrowAcct)]
      w c.vault c.maker_ata_a c.mint_a l.vaultAcct.amount l.mintAcct.decimals with
  | error e => simp [ht] at hok
  | ok w2 =>
    obtain ⟨f, t, m, -, -, -, -, -, -, -, -, -, -, -, hlam⟩ :=
      transfer_checked_ok_inv ht
    simp only [ht, runCloseCpi, Option.getD_none]
    refine ⟨alookup_delAssoc_self _ _, ?_⟩
    rw [alookup_setAssoc_self, hlam, alookup_delAssoc_ne _ _ _ hne]

/-- C7 witness: on the concrete ledger the record at 100 disappears and the
maker's lamports grow from 5 by the record's 2000 to 2005. -/
theorem refund_closes_escrow_rent_to_maker_witness :
    (validateRefund pdaW ataW worldW ctxW = Except.ok loadedW ∧
      (refundReal pdaW ataW worldW ctxW).err = none ∧
      ctxW.maker ≠ ctxW.escrow) ∧
    (alookup (refundReal pdaW ataW worldW ctxW).world.escrows ctxW.escrow = none ∧
      alookup (refundReal pdaW ataW worldW ctxW).world.lamports ctxW.maker
        = some ((alookup worldW.lamports ctxW.maker).getD 0
            + (alookup worldW.lamports ctxW.escrow).getD 0)) :=
  ⟨⟨by decide, by decide, by decide⟩,
    refund_closes_escrow_rent_to_maker pdaW ataW worldW ctxW loadedW
      (by decide) (by decide) (by decide)⟩

/-- C8 (frame): a Refund execution touches no account of the record's
`mint_b`: any token account whose asset is the escrow's `mint_b` (a distinct
asset from `mint_a`) is byte-for-byte unchanged; only `mint_a` accounts (the
Vault and the maker's ata) can move. -/
theorem refund_preserves_mint_b_accounts
    (pda : List (List Nat) → Pubkey) (ata : Pubkey → Pubkey → Pubkey)
    (w : World) (c : RefundCtx) (e : Escrow) (a : Pubkey) (t : TokenAcct)
    (hesc : alookup w.escrows c.escrow = some e)
    (hbne : e.mint_b ≠ e.mint_a)
    (ht : alookup w.tokens a = some t)
    (htb : t.mint = e.mint_b) :
    alookup (refundReal pda ata w c).world.tokens a = some t := by
  cases hval : validateRefund pda ata w c with
  | error err => simp [refundReal, refund, hval, ht]
  | ok l =>
    obtain ⟨hm, hA, -, -, -, hesc2, -, hea, -, hV, -, hvm, -⟩ :=
      validateRefund_ok_inv hval
    have hel : e = l.escrowAcct := by
      rw [hesc] at hesc2
      exact Option.some_inj.mp hesc2
    have htne : t.mint ≠ c.mint_a := by
      rw [htb, hel]
      rw [hel] at hbne
      rw [← hea]
      exact hbne
    simp only [refundReal, refund, hval]
    cases ht2 : transfer_checked [c.maker, pda (refundSignerSeeds c.maker l.escrowAcct)]
        w c.vault c.maker_ata_a c.mint_a l.vaultAcct.amount l.mintAcct.decimals with
    | error err => simp [ht2, ht]
    | ok w2 =>
      obtain ⟨f, tt, m, hf, htA, -, hfm, httm, -, -, -, htok, -, -, -⟩ :=
        transfer_checked_ok_inv ht2
      have hav : a ≠ c.vault := by
        intro hEq
        rw [hEq, hf] at ht
        rw [← Option.some_inj.mp ht] at htne
        exact htne hfm
      have haA : a ≠ c.maker_ata_a := by
        intro hEq
        rw [hEq, htA] at ht
        rw [← Option.some_inj.mp ht] at htne
        exact htne httm
      simp only [ht2, runCloseCpi, Option.getD_none]
      rw [htok, alookup_updAssoc, if_neg haA, alookup_updAssoc, if_neg hav, ht]

/-- C8 witness: a bystander account at address 77 holding the record's
`mint_b` (asset 3) is unchanged by the concrete refund. -/
theorem refund_preserves_mint_b_accounts_witness :
    (alookup worldB.escrows ctxW.escrow = some escrowW ∧
      escrowW.mint_b ≠ escrowW.mint_a ∧
      alookup worldB.tokens 77 = some ⟨3, 4, 11⟩ ∧
      (⟨3, 4, 11⟩ : TokenAcct).mint = escrowW.mint_b) ∧
    alookup (refundReal pdaW ataW worldB ctxW).world.tokens 77 = some ⟨3, 4, 11⟩ :=
  ⟨⟨by decide, by decide, by decide, by decide⟩,
    refund_preserves_mint_b_accounts pdaW ataW worldB ctxW escrowW 77 ⟨3, 4, 11⟩
      (by decide) (by decide) (by decide) (by decide)⟩

end EscrowProg

namespace EscrowProg

/-- C9 (implicit behavior): once the Vault-to-maker transfer succeeds,
`refund_and_close` returns success for every possible outcome of the close
step (the executor `closeCpi` is universally quantified because the code
binds the close result to `_` and discards it), and the close request it
issues is addressed to the associated token program, not the token program
managing the Vault. -/
theorem refund_ok_whenever_transfer_ok
    (pda : List (List Nat) → Pubkey) (ata : Pubkey → Pubkey → Pubkey)
    (closeCpi : CloseArgs → World → Option World)
    (w : World) (c : RefundCtx) (l : Loaded) (w2 : World)
    (hv : validateRefund pda ata w c = Except.ok l)
    (ht : transfer_checked [c.maker, pda (refundSignerSeeds c.maker l.escrowAcct)]
        w c.vault c.maker_ata_a c.mint_a l.vaultAcct.amount l.mintAcct.decimals
        = Except.ok w2) :
    (refund pda ata closeCpi w c).err = none ∧
    (refund pda ata closeCpi w c).cpis
      = [CpiReq.transferChecked ProgramId.token c.vault c.maker_ata_a c.mint_a
           c.escrow l.vaultAcct.amount l.mintAcct.decimals,
         CpiReq.closeAcct ProgramId.associatedToken c.vault c.maker c.escrow] := by
  simp [refund, hv, ht]

/-- C9 witness: a close executor that always fails still lets the concrete
refund succeed, with the close request addressed to the associated token
program. -/
theorem refund_ok_whenever_transfer_ok_witness :
    (validateRefund pdaW ataW worldW ctxW = Except.ok loadedW ∧
      transfer_checked [ctxW.maker, pdaW (refundSignerSeeds ctxW.maker loadedW.escrowAcct)]
        worldW ctxW.vault ctxW.maker_ata_a ctxW.mint_a loadedW.vaultAcct.amount
        loadedW.mintAcct.decimals = Except.ok w2W) ∧
    ((refund pdaW ataW (fun _ _ => none) worldW ctxW).err = none ∧
      (refund pdaW ataW (fun _ _ => none) worldW ctxW).cpis
        = [CpiReq.transferChecked ProgramId.token ctxW.vault ctxW.maker_ata_a
             ctxW.mint_a ctxW.escrow loadedW.vaultAcct.amount loadedW.mintAcct.decimals,
           CpiReq.closeAcct ProgramId.associatedToken ctxW.vault ctxW.maker ctxW.escrow]) :=
  ⟨⟨by decide, by decide⟩,
    refund_ok_whenever_transfer_ok pdaW ataW (fun _ _ => none) worldW ctxW loadedW w2W
      (by decide) (by decide)⟩

end EscrowProg

namespace EscrowProg

/-- C6: after a successful Refund the Escrow Record no longer exists: a
repeated Refund with the same accounts fails with the not-found error
(Anchor's AccountNotInitialized, the spec's `OfferNotFound`) and an Exchange
referencing the same record fails the same way, so at most one of
Exchange/Refund ever succeeds for a given record. -/
theorem refund_exclusive_after_success
    (pda : List (List Nat) → Pubkey) (ata : Pubkey → Pubkey → Pubkey)
    (w : World) (c : RefundCtx) (xc : ExchangeCtx)
    (hok : (refundReal pda ata w c).err = none)
    (hx : xc.escrow = c.escrow) :
    (refundReal pda ata (refundReal pda ata w c).world c).err
      = some Err.accountNotFound ∧
    (exchange (refundReal pda ata w c).world xc).1 = some Err.accountNotFound := by
  cases hval : validateRefund pda ata w c with
  | error err => simp [refundReal, refund, hval] at hok
  | ok l =>
    obtain ⟨hm, hA, hataA, hmam, hmaa, hesc, hpda, hea, hem, hV, hataV, hvm, hva⟩ :=
      validateRefund_ok_inv hval
    simp only [refundReal, refund, hval] at hok ⊢
    cases ht : transfer_checked [c.maker, pda (refundSignerSeeds c.maker l.escrowAcct)]
        w c.vault c.maker_ata_a c.mint_a l.vaultAcct.amount l.mintAcct.decimals with
    | error e => simp [ht] at hok
    | ok w2 =>
      obtain ⟨f, t, m, hf, htA, -, -, -, -, -, -, htok, hmints, hescr, hlam⟩ :=
        transfer_checked_ok_inv ht
      have hma2 : ∃ ma2 : TokenAcct, alookup w2.tokens c.maker_ata_a = some ma2 ∧
          ma2.mint = c.mint_a ∧ ma2.authority = c.maker := by
        rw [htok, alookup_updAssoc, if_pos rfl, alookup_updAssoc]
        by_cases hav : c.maker_ata_a = c.vault
        · have hEq : l.vaultAcct = l.makerAta := by
            rw [hav] at hA
            rw [hA] at hV
            exact (Option.some_inj.mp hV).symm
          rw [if_pos hav, hV]
          exact ⟨_, rfl, by simp [hEq, hmam], by simp [hEq, hmaa]⟩
        · rw [if_neg hav, hA]
          exact ⟨_, rfl, by simp [hmam], by simp [hmaa]⟩
      obtain ⟨ma2, hma2l, hma2m, hma2a⟩ := hma2
      simp only [ht, runCloseCpi, Option.getD_none]
      constructor
      · simp only [refund, validateRefund, hmints, hm, hma2l,
          alookup_delAssoc_self]
        rw [if_pos ⟨hataA, hma2m, hma2a⟩]
      · simp only [exchange, hx, alookup_delAssoc_self]

end EscrowProg

namespace EscrowProg

/-- Exchange call targeting the same record (escrow 100), by taker 9. -/
def xcW : ExchangeCtx := ⟨9, 100, 1002, 91, 92, 13⟩

/-- C6 witness: after the concrete refund succeeds, both a repeated Refund
and an Exchange against record 100 fail with the not-found error. -/
theorem refund_exclusive_after_success_witness :
    ((refundReal pdaW ataW worldW ctxW).err = none ∧ xcW.escrow = ctxW.escrow) ∧
    ((refundReal pdaW ataW (refundReal pdaW ataW worldW ctxW).world ctxW).err
        = some Err.accountNotFound ∧
      (exchange (refundReal pdaW ataW worldW ctxW).world xcW).1
        = some Err.accountNotFound) :=
  ⟨⟨by decide, by decide⟩,
    refund_exclusive_after_success pdaW ataW worldW ctxW xcW (by decide) (by decide)⟩

end EscrowProg

namespace Bs58

/-- C10 witness: the wallet byte array `[0, 255, 7, 58]` (all bytes below
256) encodes and decodes back to itself. -/
theorem bs58_roundtrip_witness :
    (∀ x ∈ [0, 255, 7, 58], x < 256) ∧
    bs58Decode (bs58Encode [0, 255, 7, 58]) = some [0, 255, 7, 58] :=
  ⟨by decide, bs58_roundtrip [0, 255, 7, 58] (by decide)⟩

end Bs58
